import Mathlib

/-!
Shallow embedding of `src/nanoget/nanoget.py` (the nanoget metric-extraction
module) and proofs about it.

Conventions of the embedding:
- Python exceptions and `sys.exit` calls are modelled with `Except PyErr`;
  `PyErr.systemExit` stands for a `sys.exit(...)` call (fatal, descriptive
  message, no partial output), the other constructors stand for the raw
  Python exception of the same name.
- Machine floats are modelled with `ℚ` (all arithmetic in the claims is
  exact rational arithmetic on integer inputs).
- The `concurrent.futures` worker pools are modelled as sequential `List.map`
  / structural recursion: `executor.map(f, xs)` computes `[f x for x in xs]`
  in submission order, and a raised exception in any worker is re-raised at
  the call site, which the `Except` propagation models.  Thread counts do
  not affect any computed value and are not modelled.
- `pandas.DataFrame`s are modelled as lists of row structures; `pd.concat`
  on an empty list of frames raises `ValueError`, which is modelled.
-/

set_option autoImplicit false

namespace Nanoget

/-- Python-level failure outcomes: raw exceptions (`keyError`,
`zeroDivisionError`, `indexError`, `valueError`, `typeError`) and an explicit
`sys.exit` (`systemExit`). -/
inductive PyErr where
  | keyError
  | zeroDivisionError
  | indexError
  | valueError
  | typeError
  | systemExit
  deriving DecidableEq, Repr

instance {ε α : Type} [DecidableEq ε] [DecidableEq α] : DecidableEq (Except ε α)
  | .error e, .error f =>
    if h : e = f then .isTrue (by rw [h]) else .isFalse (by simp [h])
  | .error _, .ok _ => .isFalse (by simp)
  | .ok _, .error _ => .isFalse (by simp)
  | .ok x, .ok y =>
    if h : x = y then .isTrue (by rw [h]) else .isFalse (by simp [h])

/-- `re.split` with a one-character class: split the character list at every
character satisfying `p`, dropping the separators and keeping (possibly
empty) pieces.  `re.split` on a string always returns at least one piece. -/
def pySplit (p : Char → Bool) : List Char → List (List Char)
  | [] => [[]]
  | c :: cs =>
    match pySplit p cs with
    | [] => if p c then [[], []] else [[c]]
    | r :: rs => if p c then [] :: r :: rs else (c :: r) :: rs

/-- Characters the regex class `[0-9^]` of `parse_MD` matches. -/
def mdSeparator (c : Char) : Bool :=
  c.isDigit || c == '^'

/-- `parse_MD(MDlist)`: `sum(len(item) for item in re.split('[0-9^]', MDlist))`. -/
def parse_MD (MDlist : String) : ℕ :=
  ((pySplit mdSeparator MDlist.toList).map List.length).sum

/-- `parse_CIGAR(cigartuples)`: `sum(item[1] for item in cigartuples if item[0] == 1)`
(operation code 1 is an insertion). -/
def parse_CIGAR (cigartuples : List (ℕ × ℕ)) : ℕ :=
  ((cigartuples.filter (fun item => item.1 == 1)).map (fun item => item.2)).sum

/-- Spec-side reading of the MD-derived count: the number of characters of
the MD string that are neither a digit nor `^` — i.e. the mismatch and
deletion characters of the per-base difference string. -/
def mismatchDeletionCount (MDlist : String) : ℕ :=
  (MDlist.toList.filter (fun c => !(mdSeparator c))).length

/-- Spec-side reading of the CIGAR-derived count: the sum of the lengths of
the insertion operations of the operation list. -/
def insertionLengthSum (cigartuples : List (ℕ × ℕ)) : ℕ :=
  ((cigartuples.filter (fun item => item.1 == 1)).map (fun item => item.2)).sum

/-- One pysam `AlignedSegment` as far as `extract_from_bam`/`get_pID` read
it.  `nm`/`md` are the optional `NM`/`MD` tags (`get_tag` raises `KeyError`
when the tag is absent). -/
structure BamRead where
  nm : Option ℕ
  md : Option String
  cigartuples : List (ℕ × ℕ)
  query_length : ℕ
  query_alignment_length : ℕ
  query_qualities : List ℕ
  query_alignment_qualities : List ℕ
  mapping_quality : ℕ
  is_secondary : Bool
  is_supplementary : Bool
  deriving DecidableEq, Repr

/-- `get_pID(read)`: `100 * (1 - read.get_tag("NM") / read.query_alignment_length)`,
falling back — only on `KeyError`, i.e. a missing NM tag — to
`100 * (1 - (parse_MD(read.get_tag("MD")) + parse_CIGAR(read.cigartuples)) / read.query_alignment_length)`.
Division by a zero `query_alignment_length` raises `ZeroDivisionError` in
either branch, and a missing MD tag in the fallback raises `KeyError`;
neither is caught here. -/
def get_pID (read : BamRead) : Except PyErr ℚ :=
  match read.nm with
  | some nm =>
    if read.query_alignment_length = 0 then .error .zeroDivisionError
    else .ok (100 * (1 - (nm : ℚ) / (read.query_alignment_length : ℚ)))
  | none =>
    match read.md with
    | none => .error .keyError
    | some MDlist =>
      if read.query_alignment_length = 0 then .error .zeroDivisionError
      else .ok (100 * (1 - ((parse_MD MDlist : ℚ) + (parse_CIGAR read.cigartuples : ℚ)) /
        (read.query_alignment_length : ℚ)))

/-- A concrete read carrying an NM tag (edit distance 2, aligned length 10). -/
def exReadNM : BamRead :=
  { nm := some 2
    md := none
    cigartuples := [(0, 10)]
    query_length := 10
    query_alignment_length := 10
    query_qualities := [20, 20, 20, 20, 20, 20, 20, 20, 20, 20]
    query_alignment_qualities := [20, 20, 20, 20, 20, 20, 20, 20, 20, 20]
    mapping_quality := 60
    is_secondary := false
    is_supplementary := false }

/-- A concrete read without NM tag: MD string `3C0^AT4` (one mismatch `C`,
two deleted bases `A`,`T`), one 2-base insertion in the CIGAR. -/
def exReadMD : BamRead :=
  { nm := none
    md := some "3C0^AT4"
    cigartuples := [(0, 4), (1, 2), (0, 4)]
    query_length := 10
    query_alignment_length := 10
    query_qualities := [20, 20, 20, 20, 20, 20, 20, 20, 20, 20]
    query_alignment_qualities := [20, 20, 20, 20, 20, 20, 20, 20, 20, 20]
    mapping_quality := 60
    is_secondary := false
    is_supplementary := false }

/-- Modelled from the spec: `nanomath.aveQual` is an external dependency
(the `nanomath` package, not part of this repository).  The source comments
of this module pin the one behaviour the claims depend on: "If length 0,
nanomath.aveQual will throw a ZeroDivisionError" — the mean divides by the
number of scores.  The returned quality value is modelled as the arithmetic
mean of the per-base scores; no claim depends on that numeric value. -/
def aveQual (quals : List ℕ) : Except PyErr ℚ :=
  if quals.length = 0 then .error .zeroDivisionError
  else .ok ((quals.map (fun q => (q : ℚ))).sum / (quals.length : ℚ))

/-- The value `aveQual` returns on a non-empty score list. -/
def aveQualVal (quals : List ℕ) : ℚ :=
  (quals.map (fun q => (q : ℚ))).sum / (quals.length : ℚ)

/-- One row of the per-chromosome metric tuple built by `extract_from_bam`
(one entry of each of the six parallel lists). -/
structure BamRow where
  lengths : ℕ
  aligned_lengths : ℕ
  quals : ℚ
  aligned_quals : ℚ
  mapQ : ℕ
  percentIdentity : ℚ
  deriving DecidableEq, Repr

/-- `extract_from_bam`: loop over the fetched reads of one chromosome; a
read is processed only `if not read.is_secondary`; for a processed read the
loop appends `aveQual(read.query_qualities)`,
`aveQual(read.query_alignment_qualities)`, `read.query_length`,
`read.query_alignment_length`, `read.mapping_quality` and `get_pID(read)`.
No exception is caught in the loop, so the first raised exception aborts
the whole worker. -/
def extract_from_bam : List BamRead → Except PyErr (List BamRow)
  | [] => .ok []
  | read :: rest =>
    if read.is_secondary then extract_from_bam rest
    else
      match aveQual read.query_qualities with
      | .error e => .error e
      | .ok q =>
        match aveQual read.query_alignment_qualities with
        | .error e => .error e
        | .ok aq =>
          match get_pID read with
          | .error e => .error e
          | .ok pid =>
            match extract_from_bam rest with
            | .error e => .error e
            | .ok tail =>
              .ok (⟨read.query_length, read.query_alignment_length, q, aq,
                read.mapping_quality, pid⟩ :: tail)

/-- A read raises no exception while being processed: non-empty quality
lists, a non-zero aligned length, and at least one of the NM/MD tags. -/
def readOK (r : BamRead) : Bool :=
  !r.query_qualities.isEmpty && !r.query_alignment_qualities.isEmpty &&
    r.query_alignment_length != 0 && (r.nm.isSome || r.md.isSome)

/-- Total-function rendering of `get_pID` on exception-free reads. -/
def pIDVal (read : BamRead) : ℚ :=
  match read.nm with
  | some nm => 100 * (1 - (nm : ℚ) / (read.query_alignment_length : ℚ))
  | none =>
    match read.md with
    | some MDlist =>
      100 * (1 - ((parse_MD MDlist : ℚ) + (parse_CIGAR read.cigartuples : ℚ)) /
        (read.query_alignment_length : ℚ))
    | none => 0

/-- The `BamRow` an exception-free read contributes. -/
def mkBamRow (read : BamRead) : BamRow :=
  ⟨read.query_length, read.query_alignment_length,
    aveQualVal read.query_qualities, aveQualVal read.query_alignment_qualities,
    read.mapping_quality, pIDVal read⟩

/-- A primary read whose alignment has zero aligned length (and therefore an
empty aligned-quality list, as pysam guarantees). -/
def zeroAlnRead : BamRead :=
  { nm := some 0
    md := none
    cigartuples := []
    query_length := 4
    query_alignment_length := 0
    query_qualities := [10, 10, 10, 10]
    query_alignment_qualities := []
    mapping_quality := 0
    is_secondary := false
    is_supplementary := false }

/-- A supplementary (non-secondary) alignment record. -/
def suppRead : BamRead :=
  { nm := some 1
    md := none
    cigartuples := [(0, 5)]
    query_length := 5
    query_alignment_length := 5
    query_qualities := [10]
    query_alignment_qualities := [10]
    mapping_quality := 60
    is_secondary := false
    is_supplementary := true }

/-- A secondary alignment record. -/
def secRead : BamRead :=
  { nm := some 1
    md := none
    cigartuples := [(0, 5)]
    query_length := 5
    query_alignment_length := 5
    query_qualities := [10]
    query_alignment_qualities := [10]
    mapping_quality := 0
    is_secondary := true
    is_supplementary := false }

/-- One Biopython `SeqRecord` as the fastq extractors read it: `len(record)`
(`seq_len`), `letter_annotations["phred_quality"]` and the description line.
`SeqIO.parse(..., "fastq")` guarantees the per-base quality list has exactly
`len(record)` entries; theorems that need this state it as a hypothesis. -/
structure FastqRecord where
  seq_len : ℕ
  phred_quality : List ℕ
  description : String
  deriving DecidableEq, Repr

/-- Python `str.split(sep)` with a one-character separator: split at every
occurrence of the separator, keeping (possibly empty) pieces. -/
def pySplitStr (sep : Char) (s : String) : List String :=
  (pySplit (fun c => c == sep) s.toList).map (fun cs => String.mk cs)

/-- `info_to_dict(info)`:
`{field.split('=')[0]: field.split('=')[1] for field in info.split(' ')[1:]}`.
A field without `=` makes `field.split('=')[1]` raise `IndexError`.  The
association list keeps insertion order; later duplicates override earlier
ones, which `dict_get` honours by searching from the right. -/
def info_to_dict (info : String) : Except PyErr (List (String × String)) :=
  ((pySplitStr ' ' info).drop 1).mapM fun field =>
    match pySplitStr '=' field with
    | [] => .error .indexError
    | [_] => .error .indexError
    | k :: v :: _ => .ok (k, v)

/-- Python `dict` lookup over the association list built by `info_to_dict`
(the last binding of a key wins). -/
def dict_get (d : List (String × String)) (k : String) : Option String :=
  (d.reverse.find? (fun kv => kv.1 == k)).map (fun kv => kv.2)

/-- `np.int16` applied to an integer: wrap into `[-2^15, 2^15)`. -/
def toInt16 (n : ℤ) : ℤ :=
  (n + 2 ^ 15) % 2 ^ 16 - 2 ^ 15

/-- One entry of the five parallel lists collected by the
`process_fastq_rich` loop, before the DataFrame conversion. -/
structure RichRaw where
  lengths : ℕ
  quals : ℚ
  ch : String
  start_time : String
  runid : String
  deriving DecidableEq, Repr

/-- One row of the DataFrame `process_fastq_rich` returns (`channelIDs` has
been converted with `np.int16`). -/
structure RichRow where
  lengths : ℕ
  quals : ℚ
  channelIDs : ℤ
  runIDs : String
  timestamp : String
  deriving DecidableEq, Repr

/-- The record loop of `process_fastq_rich`: per record, inside `try`,
append `aveQual` of the qualities, the length, then the `ch`, `start_time`
and `runid` values of the parsed description.  `except ZeroDivisionError:
pass` skips the record (a zero-length read fails already at `aveQual`,
before the description is inspected); `except KeyError:` calls `sys.exit`
(a missing required key).  `IndexError` from `info_to_dict` is not caught. -/
def rich_collect : List FastqRecord → Except PyErr (List RichRaw)
  | [] => .ok []
  | record :: rest =>
    match aveQual record.phred_quality with
    | .error .zeroDivisionError => rich_collect rest
    | .error e => .error e
    | .ok q =>
      match info_to_dict record.description with
      | .error e => .error e
      | .ok read_info =>
        match dict_get read_info "ch" with
        | none => .error .systemExit
        | some ch =>
          match dict_get read_info "start_time" with
          | none => .error .systemExit
          | some st =>
            match dict_get read_info "runid" with
            | none => .error .systemExit
            | some rid =>
              match rich_collect rest with
              | .error e => .error e
              | .ok tail => .ok (⟨record.seq_len, q, ch, st, rid⟩ :: tail)

/-- `process_fastq_rich(fastq, threads, readtype)` on the parsed records:
run the collection loop, then build the DataFrame, converting the channel
strings with `np.int16` (a non-numeric channel raises `ValueError`). -/
def process_fastq_rich (records : List FastqRecord) : Except PyErr (List RichRow) :=
  match rich_collect records with
  | .error e => .error e
  | .ok raws =>
    raws.mapM fun r =>
      match r.ch.toInt? with
      | none => .error .valueError
      | some n => .ok ⟨r.lengths, r.quals, toInt16 n, r.runid, r.start_time⟩

/-- The description line parses without `IndexError` (every `key=value`
token contains an `=`). -/
def descriptionParses (r : FastqRecord) : Bool :=
  match info_to_dict r.description with
  | .ok _ => true
  | .error _ => false

/-- The parsed description lacks at least one of the three required keys
`ch`, `start_time`, `runid`. -/
def missing_required_key (r : FastqRecord) : Bool :=
  match info_to_dict r.description with
  | .error _ => false
  | .ok d =>
    (dict_get d "ch").isNone || (dict_get d "start_time").isNone ||
      (dict_get d "runid").isNone

/-- A zero-length rich-format record whose description is missing the
channel-id key `ch`. -/
def zeroLenNoCh : FastqRecord :=
  ⟨0, [], "read1 start_time=2016-07-15T14:23:22Z runid=abc"⟩

/-- Rich records for the 3-record scenario: two complete ones and one of
non-zero length missing the `ch` key. -/
def richRecA : FastqRecord :=
  ⟨4, [10, 10, 10, 10], "r1 ch=5 start_time=2016-07-15T14:23:22Z runid=abc"⟩

def richRecNoCh : FastqRecord :=
  ⟨4, [10, 10, 10, 10], "r2 start_time=2016-07-15T14:23:25Z runid=abc"⟩

def richRecC : FastqRecord :=
  ⟨4, [10, 10, 10, 10], "r3 ch=7 start_time=2016-07-15T14:23:28Z runid=abc"⟩

/-- `extract_from_fastq(rec)`: return
`(aveQual(rec.letter_annotations["phred_quality"]), len(rec))`, or `None`
when `aveQual` raises `ZeroDivisionError` (the only exception it raises,
thrown exactly on an empty quality list). -/
def extract_from_fastq (rec : FastqRecord) : Option (ℚ × ℕ) :=
  match aveQual rec.phred_quality with
  | .ok q => some (q, rec.seq_len)
  | .error _ => none

/-- One row of the DataFrame `process_fastq_plain` returns. -/
structure PlainRow where
  lengths : ℕ
  quals : ℚ
  deriving DecidableEq, Repr

/-- `process_fastq_plain(fastq, threads, readtype)` on the parsed records:
map `extract_from_fastq` over the records, keep the non-`None` results, and
build the two-column DataFrame (`lengths` from the second tuple slot,
`quals` from the first). -/
def process_fastq_plain (records : List FastqRecord) : List PlainRow :=
  (records.filterMap extract_from_fastq).map (fun item => ⟨item.2, item.1⟩)

/-- Plain records: two of non-zero length around one zero-length record. -/
def plainRecA : FastqRecord := ⟨2, [10, 20], "r1"⟩

def plainRecZero : FastqRecord := ⟨0, [], "r2"⟩

def plainRecB : FastqRecord := ⟨1, [30], "r3"⟩

/-- The keys of the `proc_functions` dispatch dict of `get_input`. -/
def proc_function_names : List String :=
  ["fastq", "bam", "summary", "fastq_rich", "fastq_minimal"]

/-- Outcome of one `get_input` call: the returned table (or raised error),
plus the input files that were handed to an extractor. -/
structure GetInputRun (β : Type) where
  result : Except PyErr (List β)
  files_read : List String

/-- `combine_dfs(dfs, names, method)`: under `"track"`, tag each frame's
rows with its dataset name (`zip(dfs, names)` silently truncates to the
shorter list) and concatenate; under `"simple"`, concatenate untagged.
`pd.concat` of an empty list of frames raises `ValueError`.  Any other
method falls off the end of the function, returning Python `None`
(modelled as the inner `Option.none`). -/
def combine_dfs {α : Type} (dfs : List (List α)) (names : List String)
    (method : String) : Except PyErr (Option (List (α × Option String))) :=
  if method = "track" then
    let res := (dfs.zip names).map (fun p => p.1.map (fun r => (r, some p.2)))
    if res.isEmpty then .error .valueError
    else .ok (some res.flatten)
  else if method = "simple" then
    if dfs.isEmpty then .error .valueError
    else .ok (some (dfs.flatten.map (fun r => (r, none))))
  else .ok none

/-- `np.amin` over a list of integers; numpy raises `ValueError` on an
empty array, modelled by `none`. -/
def npAmin : List ℤ → Option ℤ
  | [] => none
  | t :: ts => some (ts.foldl min t)

/-- A merged row of a frame that has the raw `"time"` column
(epoch seconds). -/
structure TimedRow where
  time : ℤ
  deriving DecidableEq, Repr

/-- One output row of the time normalization: the relative `start_time`
plus the dataset tag (present only under `"track"`). -/
structure StartRow where
  start_time : ℤ
  dataset : Option String
  deriving DecidableEq, Repr

/-- Post-processing of the merged frame when a source format without a raw
time column ("fastq", "bam") was extracted: both `if "time" in datadf` and
`if "timestamp" in datadf` are false and the frame is returned as-is. -/
def post_plain {α : Type} (rows : List (α × Option String)) :
    Except PyErr (List (α × Option String)) :=
  .ok rows

/-- Post-processing of the merged frame when the raw `"time"` column is
present: `datadf["start_time"] = a_time_stamps - np.amin(a_time_stamps)`
— ONE minimum over the whole merged frame — then the raw column is
dropped.  The `"timestamp"` branch of the source performs the same
arithmetic through pandas for the rich/minimal formats. -/
def post_time (rows : List (TimedRow × Option String)) :
    Except PyErr (List StartRow) :=
  match npAmin (rows.map (fun r => r.1.time)) with
  | none => .error .valueError
  | some m => .ok (rows.map (fun r => ⟨r.1.time - m, r.2⟩))

/-- The dataset names `combine_dfs` receives: `names or files` — Python's
`or` falls back to `files` both for `None` and for an empty list. -/
def effective_names (names : Option (List String)) (files : List String) :
    List String :=
  match names with
  | none => files
  | some ns => if ns.isEmpty then files else ns

/-- `get_input(source, files, threads, readtype, combine, names)`: the
dispatch `proc_functions[source]` raises `KeyError` for an unknown source
tag before any file is opened (so `files_read = []` there); otherwise every
file is handed to the chosen extractor (modelled by `extract`), the partial
frames are merged by `combine_dfs` with `names or files` as dataset names,
and the merged frame is post-processed by the schema-dependent time
normalization (`post`).  `"time" in None` — an unknown combine method —
raises `TypeError`. -/
def get_input {α β : Type}
    (post : List (α × Option String) → Except PyErr (List β))
    (source : String) (files : List String) (extract : String → List α)
    (names : Option (List String)) (combine : String) : GetInputRun β :=
  if proc_function_names.contains source then
    match combine_dfs (files.map extract) (effective_names names files) combine with
    | .error e => ⟨.error e, files⟩
    | .ok none => ⟨.error .typeError, files⟩
    | .ok (some rows) => ⟨post rows, files⟩
  else ⟨.error .keyError, []⟩

/-- Per-file partial frames for the tracked two-file run: `fileA` holds
times 10 and 20, `fileB` holds time 30. -/
def c4Extract (f : String) : List TimedRow :=
  if f = "fileA" then [⟨10⟩, ⟨20⟩] else [⟨30⟩]

/-- A tracked (`combine="track"`) two-dataset `get_input` run. -/
def c4run : GetInputRun StartRow :=
  get_input post_time "summary" ["fileA", "fileB"] c4Extract none "track"

/-- Per-file partial frames for the mismatched-names run. -/
def c6Extract (f : String) : List PlainRow :=
  if f = "a.fastq" then [⟨5, 10⟩] else [⟨7, 20⟩]

/-- A tracked run over TWO files with only ONE supplied dataset name. -/
def c6run : GetInputRun (PlainRow × Option String) :=
  get_input post_plain "fastq" ["a.fastq", "b.fastq"] c6Extract
    (some ["only_name"]) "track"

/-- A run over one file whose every record is dropped (the single record
has zero length), so the merged table is empty. -/
def c8run : GetInputRun (PlainRow × Option String) :=
  get_input post_plain "fastq" ["empty.fastq"]
    (fun _ => process_fastq_plain [⟨0, [], "r"⟩]) none "simple"

/-- The open handle `handle_compressed_fastq` returns. -/
inductive FqHandle where
  | stdinStream
  | gzipStream (f : String)
  | bz2Stream (f : String)
  | plainStream (f : String)
  deriving DecidableEq, Repr

/-- Python `str.endswith(suffix)`. -/
def pyEndsWith (s suffix : String) : Bool :=
  List.isSuffixOf suffix.toList s.toList

/-- `handle_compressed_fastq(inputfq)`: `'stdin'` returns the stdin
stream; otherwise the file must exist (`check_existance` calls `sys.exit`
when it does not — existence is supplied by the oracle `fileExists`), then
the extension decides the handle: `.gz` → gzip, `.bz2` → bz2,
`.fastq`/`.fq`/`.bgz` → plain `open`; anything else is a fatal `sys.exit`
("INPUT ERROR: Unrecognized file extension"). -/
def handle_compressed_fastq (fileExists : String → Bool) (inputfq : String) :
    Except PyErr FqHandle :=
  if inputfq = "stdin" then .ok .stdinStream
  else if !(fileExists inputfq) then .error .systemExit
  else if pyEndsWith inputfq ".gz" then .ok (.gzipStream inputfq)
  else if pyEndsWith inputfq ".bz2" then .ok (.bz2Stream inputfq)
  else if pyEndsWith inputfq ".fastq" || pyEndsWith inputfq ".fq" ||
    pyEndsWith inputfq ".bgz" then .ok (.plainStream inputfq)
  else .error .systemExit

/-- `process_fastq_plain` at file level: the handle is opened first and any
failure there propagates; only then are records parsed and extracted
(`contents` supplies the parsed records of a file). -/
def process_fastq_plain_file (fileExists : String → Bool)
    (contents : String → List FastqRecord) (fastq : String) :
    Except PyErr (List PlainRow) :=
  match handle_compressed_fastq fileExists fastq with
  | .error e => .error e
  | .ok _ => .ok (process_fastq_plain (contents fastq))

end Nanoget

namespace Nanoget

theorem pySplit_ne_nil (p : Char → Bool) (l : List Char) : pySplit p l ≠ [] := by
  cases l with
  | nil => simp [pySplit]
  | cons c cs =>
    simp only [pySplit]
    cases h : pySplit p cs with
    | nil => by_cases hp : p c <;> simp [hp]
    | cons r rs => by_cases hp : p c <;> simp [hp]

theorem pySplit_length_sum (p : Char → Bool) (l : List Char) :
    ((pySplit p l).map List.length).sum = (l.filter (fun c => !(p c))).length := by
  induction l with
  | nil => rfl
  | cons c cs ih =>
    simp only [pySplit]
    cases h : pySplit p cs with
    | nil => exact absurd h (pySplit_ne_nil p cs)
    | cons r rs =>
      rw [h] at ih
      by_cases hp : p c
      · simp only [hp, if_pos, List.map_cons, List.sum_cons, List.length_nil,
          Nat.zero_add, List.filter_cons]
        simpa [hp] using ih
      · simp only [hp, if_neg, List.map_cons, List.sum_cons, List.length_cons,
          List.filter_cons]
        simp only [List.map_cons, List.sum_cons] at ih
        simp [hp, ← ih, Nat.add_assoc, Nat.add_comm, Nat.add_left_comm]

/-- The regex-split computation of `parse_MD` counts exactly the
non-digit, non-caret characters of the MD string. -/
theorem parse_MD_eq_mismatchDeletionCount (MDlist : String) :
    parse_MD MDlist = mismatchDeletionCount MDlist := by
  unfold parse_MD mismatchDeletionCount
  exact pySplit_length_sum mdSeparator MDlist.toList

theorem aveQual_nil : aveQual [] = .error .zeroDivisionError := rfl

theorem aveQual_ok (quals : List ℕ) (h : quals ≠ []) :
    aveQual quals = .ok (aveQualVal quals) := by
  simp [aveQual, aveQualVal, List.length_eq_zero, h]

theorem get_pID_ok (read : BamRead) (hlen : read.query_alignment_length ≠ 0)
    (htag : read.nm.isSome || read.md.isSome) :
    get_pID read = .ok (pIDVal read) := by
  cases hnm : read.nm with
  | some nm => simp [get_pID, pIDVal, hnm, hlen]
  | none =>
    cases hmd : read.md with
    | some MDlist => simp [get_pID, pIDVal, hnm, hmd, hlen]
    | none => simp [hnm, hmd] at htag

/-- A zero aligned length always makes `get_pID` raise: `ZeroDivisionError`
in either division branch, `KeyError` if both tags are absent. -/
theorem get_pID_zero_aligned_length (read : BamRead)
    (h : read.query_alignment_length = 0) :
    ∃ e, get_pID read = .error e := by
  cases hnm : read.nm with
  | some nm => exact ⟨.zeroDivisionError, by simp [get_pID, hnm, h]⟩
  | none =>
    cases hmd : read.md with
    | none => exact ⟨.keyError, by simp [get_pID, hnm, hmd]⟩
    | some MDlist => exact ⟨.zeroDivisionError, by simp [get_pID, hnm, hmd, h]⟩

theorem aveQual_error (quals : List ℕ) (e : PyErr) (h : aveQual quals = .error e) :
    quals = [] ∧ e = .zeroDivisionError := by
  by_cases hl : quals.length = 0
  · refine ⟨List.length_eq_zero.mp hl, ?_⟩
    have h2 : PyErr.zeroDivisionError = e := by simpa [aveQual, hl] using h
    exact h2.symm
  · simp [aveQual, hl] at h

theorem foldl_min_le_init (ts : List ℤ) (a : ℤ) : ts.foldl min a ≤ a := by
  induction ts generalizing a with
  | nil => exact le_refl a
  | cons t ts ih => exact le_trans (ih (min a t)) (min_le_left a t)

theorem foldl_min_le_mem (ts : List ℤ) (a : ℤ) :
    ∀ x ∈ ts, ts.foldl min a ≤ x := by
  induction ts generalizing a with
  | nil => intro x hx; simp at hx
  | cons t ts ih =>
    intro x hx
    rcases List.mem_cons.mp hx with heq | hmem
    · subst heq
      exact le_trans (foldl_min_le_init ts (min a x)) (min_le_right a x)
    · exact ih (min a t) x hmem

theorem foldl_min_mem (ts : List ℤ) (a : ℤ) :
    ts.foldl min a = a ∨ ts.foldl min a ∈ ts := by
  induction ts generalizing a with
  | nil => exact Or.inl rfl
  | cons t ts ih =>
    rw [List.foldl_cons]
    rcases ih (min a t) with heq | hmem
    · rw [heq]
      rcases min_choice a t with h | h
      · exact Or.inl h
      · refine Or.inr ?_
        rw [h]
        exact List.mem_cons_self t ts
    · exact Or.inr (List.mem_cons_of_mem t hmem)

theorem npAmin_spec (l : List ℤ) (m : ℤ) (h : npAmin l = some m) :
    m ∈ l ∧ ∀ x ∈ l, m ≤ x := by
  cases l with
  | nil => simp [npAmin] at h
  | cons t ts =>
    rw [npAmin, Option.some_inj] at h
    subst h
    constructor
    · rcases foldl_min_mem ts t with heq | hmem
      · rw [heq]
        exact List.mem_cons_self t ts
      · exact List.mem_cons_of_mem t hmem
    · intro x hx
      rcases List.mem_cons.mp hx with heq | hmem
      · rw [heq]
        exact foldl_min_le_init ts t
      · exact foldl_min_le_mem ts t x hmem

theorem npAmin_eq_some (l : List ℤ) (m : ℤ) (hm : m ∈ l)
    (hle : ∀ x ∈ l, m ≤ x) : npAmin l = some m := by
  cases l with
  | nil => simp at hm
  | cons t ts =>
    obtain ⟨hmem, hmin⟩ := npAmin_spec (t :: ts) (ts.foldl min t) rfl
    rw [npAmin, Option.some_inj]
    exact le_antisymm (hmin m hm) (hle _ hmem)

theorem npAmin_map_sub (l : List ℤ) (m : ℤ) (h : npAmin l = some m) :
    npAmin (l.map (fun t => t - m)) = some 0 := by
  obtain ⟨hm, hle⟩ := npAmin_spec l m h
  apply npAmin_eq_some
  · exact List.mem_map.mpr ⟨m, hm, by ring⟩
  · intro x hx
    obtain ⟨y, hy, hxy⟩ := List.mem_map.mp hx
    subst hxy
    exact sub_nonneg.mpr (hle y hy)

end Nanoget

/-- C1: For every alignment record with aligned length `L > 0`: if the NM
(edit-distance) tag is available, `get_pID` returns `100 * (1 - NM / L)`;
otherwise (NM absent, MD present) it returns
`100 * (1 - (mismatch/deletion characters of the MD string + summed lengths
of CIGAR insertion operations) / L)`. -/
theorem C1_get_pID_percent_identity (read : Nanoget.BamRead)
    (h : 0 < read.query_alignment_length) :
    (∀ nm, read.nm = some nm →
      Nanoget.get_pID read =
        .ok (100 * (1 - (nm : ℚ) / (read.query_alignment_length : ℚ)))) ∧
    (∀ MDlist, read.nm = none → read.md = some MDlist →
      Nanoget.get_pID read =
        .ok (100 * (1 - ((Nanoget.mismatchDeletionCount MDlist : ℚ) +
            (Nanoget.insertionLengthSum read.cigartuples : ℚ)) /
          (read.query_alignment_length : ℚ)))) := by
  constructor
  · intro nm hnm
    simp [Nanoget.get_pID, hnm, Nat.pos_iff_ne_zero.mp h]
  · intro MDlist hnm hmd
    simp [Nanoget.get_pID, hnm, hmd, Nat.pos_iff_ne_zero.mp h,
      Nanoget.parse_MD_eq_mismatchDeletionCount,
      Nanoget.parse_CIGAR, Nanoget.insertionLengthSum]

/-- C1 witness: the theorem applied at concrete reads — NM branch gives
`100 * (1 - 2/10) = 80`, MD/CIGAR branch gives `100 * (1 - (3 + 2)/10) = 50`. -/
theorem C1_get_pID_percent_identity_witness :
    Nanoget.get_pID Nanoget.exReadNM = .ok 80 ∧
    Nanoget.get_pID Nanoget.exReadMD = .ok 50 := by
  constructor
  · have h := (C1_get_pID_percent_identity Nanoget.exReadNM (by decide)).1 2 rfl
    rw [h]
    have hl : Nanoget.exReadNM.query_alignment_length = 10 := rfl
    rw [hl]
    norm_num
  · have h := (C1_get_pID_percent_identity Nanoget.exReadMD (by decide)).2 "3C0^AT4" rfl rfl
    rw [h]
    have hl : Nanoget.exReadMD.query_alignment_length = 10 := rfl
    have hmd : Nanoget.mismatchDeletionCount "3C0^AT4" = 3 := by decide
    have hins : Nanoget.insertionLengthSum Nanoget.exReadMD.cigartuples = 2 := by decide
    rw [hl, hmd, hins]
    norm_num

/-- C2 (amended): a non-secondary read with aligned length 0 is NOT
recovered: `get_pID` raises (only `KeyError` — a missing NM tag — is ever
caught there), `extract_from_bam` catches nothing, so the whole
per-chromosome extraction fails with an exception surfaced to the caller. -/
theorem C2_zero_aligned_length_fatal (reads : List Nanoget.BamRead)
    (r : Nanoget.BamRead) (hr : r ∈ reads) (hsec : r.is_secondary = false)
    (hlen : r.query_alignment_length = 0) :
    ∃ e, Nanoget.extract_from_bam reads = .error e := by
  induction reads with
  | nil => simp at hr
  | cons head rest ih =>
    rcases List.mem_cons.mp hr with heq | hmem
    · subst heq
      rw [Nanoget.extract_from_bam, if_neg (by simp [hsec])]
      cases h1 : Nanoget.aveQual r.query_qualities with
      | error e => exact ⟨e, rfl⟩
      | ok q =>
        cases h2 : Nanoget.aveQual r.query_alignment_qualities with
        | error e => exact ⟨e, rfl⟩
        | ok aq =>
          obtain ⟨e, he⟩ := Nanoget.get_pID_zero_aligned_length r hlen
          exact ⟨e, by rw [he]⟩
    · obtain ⟨e, he⟩ := ih hmem
      rw [Nanoget.extract_from_bam]
      by_cases hh : head.is_secondary
      · simpa [hh] using ⟨e, he⟩
      · rw [if_neg (by simp [hh])]
        cases h1 : Nanoget.aveQual head.query_qualities with
        | error e' => exact ⟨e', rfl⟩
        | ok q =>
          cases h2 : Nanoget.aveQual head.query_alignment_qualities with
          | error e' => exact ⟨e', rfl⟩
          | ok aq =>
            cases h3 : Nanoget.get_pID head with
            | error e' => exact ⟨e', rfl⟩
            | ok pid => exact ⟨e, by rw [he]⟩

/-- C2 counterexample: processing a single primary read with aligned length
0 makes `extract_from_bam` return an error to its caller — the record is
not silently skipped and the failure is not recovered locally, refuting the
claim at this concrete input. -/
theorem C2_zero_aligned_length_fatal_counterexample :
    Nanoget.extract_from_bam [Nanoget.zeroAlnRead] =
      .error .zeroDivisionError := rfl

/-- C2 witness: the amended theorem applied to the concrete one-read list. -/
theorem C2_zero_aligned_length_fatal_witness :
    ∃ e, Nanoget.extract_from_bam [Nanoget.zeroAlnRead] = .error e :=
  C2_zero_aligned_length_fatal [Nanoget.zeroAlnRead] Nanoget.zeroAlnRead
    (List.mem_singleton.mpr rfl) rfl rfl

/-- C5 (amended): for reads that raise no exception, `extract_from_bam`
keeps exactly the non-secondary reads, in order: secondary alignments are
always excluded and supplementary alignments are always included — the
filter consults only `is_secondary`; no keep-supplementary flag exists in
this code. -/
theorem C5_extract_from_bam_keeps_nonsecondary (reads : List Nanoget.BamRead)
    (h : ∀ r ∈ reads, r.is_secondary = false → Nanoget.readOK r = true) :
    Nanoget.extract_from_bam reads =
      .ok ((reads.filter (fun r => !r.is_secondary)).map Nanoget.mkBamRow) := by
  induction reads with
  | nil => rfl
  | cons head rest ih =>
    have hrest : ∀ r ∈ rest, r.is_secondary = false → Nanoget.readOK r = true :=
      fun r hr => h r (List.mem_cons_of_mem head hr)
    by_cases hh : head.is_secondary
    · rw [Nanoget.extract_from_bam, if_pos hh, ih hrest]
      simp [hh]
    · have hok := h head (List.mem_cons_self head rest) (by simpa using hh)
      simp only [Nanoget.readOK, Bool.and_eq_true, Bool.not_eq_true',
        List.isEmpty_eq_false_iff_exists_mem, bne_iff_ne] at hok
      obtain ⟨⟨⟨hq, haq⟩, hlen⟩, htag⟩ := hok
      rw [Nanoget.extract_from_bam, if_neg (by simp [hh])]
      rw [Nanoget.aveQual_ok _ (by rcases hq with ⟨x, hx⟩; exact List.ne_nil_of_mem hx)]
      rw [Nanoget.aveQual_ok _ (by rcases haq with ⟨x, hx⟩; exact List.ne_nil_of_mem hx)]
      rw [Nanoget.get_pID_ok head hlen htag, ih hrest]
      simp [hh, Nanoget.mkBamRow]

/-- C5 counterexample: a supplementary alignment contributes a row although
no keep-supplementary flag exists (none was — or could be — requested):
`extract_from_bam` has no such parameter and includes every non-secondary
read, refuting "supplementary alignments are included only when explicitly
requested". -/
theorem C5_supplementary_always_included_counterexample :
    Nanoget.suppRead.is_supplementary = true ∧
    Nanoget.extract_from_bam [Nanoget.suppRead] =
      .ok [Nanoget.mkBamRow Nanoget.suppRead] ∧
    (Nanoget.mkBamRow Nanoget.suppRead).percentIdentity = 80 := by
  refine ⟨rfl, ?_, ?_⟩
  · rw [Nanoget.extract_from_bam, if_neg (by decide)]
    rw [Nanoget.aveQual_ok _ (by decide)]
    rw [Nanoget.aveQual_ok _ (by decide)]
    rw [Nanoget.get_pID_ok _ (by decide) (by decide)]
    rfl
  · norm_num [Nanoget.mkBamRow, Nanoget.pIDVal, Nanoget.suppRead]

/-- C5 witness: the amended theorem applied to a concrete primary-plus-
secondary read list — the secondary read is dropped. -/
theorem C5_extract_from_bam_keeps_nonsecondary_witness :
    Nanoget.extract_from_bam [Nanoget.exReadNM, Nanoget.secRead] =
      .ok [Nanoget.mkBamRow Nanoget.exReadNM] := by
  have h := C5_extract_from_bam_keeps_nonsecondary
    [Nanoget.exReadNM, Nanoget.secRead] (by decide)
  rw [h]
  rfl

/-- C3 (amended): a rich-format record of non-zero length whose description
is missing one of the keys `ch`, `start_time`, `runid` aborts the whole
call with `sys.exit` and no table is returned (given every description line
parses) — but a ZERO-length record is skipped by the `ZeroDivisionError`
handler before its description is ever validated, so a zero-length record
with missing keys does not abort. -/
theorem C3_missing_metadata_fatal (records : List Nanoget.FastqRecord)
    (hwf : ∀ r ∈ records, Nanoget.descriptionParses r = true)
    (hbad : ∃ r ∈ records, r.phred_quality ≠ [] ∧
      Nanoget.missing_required_key r = true) :
    Nanoget.process_fastq_rich records = .error .systemExit := by
  suffices h : Nanoget.rich_collect records = .error .systemExit by
    rw [Nanoget.process_fastq_rich, h]
  induction records with
  | nil => simp at hbad
  | cons record rest ih =>
    have hwfrest : ∀ r ∈ rest, Nanoget.descriptionParses r = true :=
      fun r hr => hwf r (List.mem_cons_of_mem record hr)
    obtain ⟨r, hr, hphred, hmiss⟩ := hbad
    rw [Nanoget.rich_collect]
    cases hq : Nanoget.aveQual record.phred_quality with
    | error e =>
      obtain ⟨hnil, he⟩ := Nanoget.aveQual_error _ _ hq
      subst he
      rcases List.mem_cons.mp hr with heq | hmem
      · exact absurd hnil (heq ▸ hphred)
      · exact ih hwfrest ⟨r, hmem, hphred, hmiss⟩
    | ok q =>
      cases hinfo : Nanoget.info_to_dict record.description with
      | error e =>
        have := hwf record (List.mem_cons_self record rest)
        rw [Nanoget.descriptionParses, hinfo] at this
        exact absurd this (by simp)
      | ok d =>
        cases hch : Nanoget.dict_get d "ch" with
        | none => simp [hch]
        | some ch =>
          cases hst : Nanoget.dict_get d "start_time" with
          | none => simp [hch, hst]
          | some st =>
            cases hrid : Nanoget.dict_get d "runid" with
            | none => simp [hch, hst, hrid]
            | some rid =>
              have htail : Nanoget.rich_collect rest = .error .systemExit := by
                rcases List.mem_cons.mp hr with heq | hmem
                · subst heq
                  simp [Nanoget.missing_required_key, hinfo, hch, hst, hrid] at hmiss
                · exact ih hwfrest ⟨r, hmem, hphred, hmiss⟩
              simp [hch, hst, hrid, htail]

/-- C3 counterexample: an input whose (only) record is missing the required
`ch` key does NOT abort — the record has zero length, so the
`ZeroDivisionError` handler skips it before the metadata keys are checked,
and the call returns an (empty) table, refuting the claim as stated. -/
theorem C3_missing_metadata_fatal_counterexample :
    Nanoget.missing_required_key Nanoget.zeroLenNoCh = true ∧
    Nanoget.process_fastq_rich [Nanoget.zeroLenNoCh] = .ok [] := by
  constructor
  · decide
  · rfl

/-- C3 witness: the amended theorem applied to the 3-record scenario of the
spec — one non-zero-length record lacking the `ch` key aborts the call. -/
theorem C3_missing_metadata_fatal_witness :
    Nanoget.process_fastq_rich
      [Nanoget.richRecA, Nanoget.richRecNoCh, Nanoget.richRecC] =
      .error .systemExit :=
  C3_missing_metadata_fatal _ (by decide)
    ⟨Nanoget.richRecNoCh, by decide, by decide, by decide⟩

/-- C9: in plain-format extraction a record of zero sequence length is
silently dropped — no error is raised (the `ZeroDivisionError` is caught
and mapped to `None`) and no row is produced for it — and every other
record produces exactly one row, in input order. -/
theorem C9_zero_length_records_dropped (records : List Nanoget.FastqRecord)
    (hwf : ∀ r ∈ records, r.phred_quality.length = r.seq_len) :
    Nanoget.process_fastq_plain records =
      (records.filter (fun r => r.seq_len != 0)).map
        (fun r => ⟨r.seq_len, Nanoget.aveQualVal r.phred_quality⟩) := by
  induction records with
  | nil => rfl
  | cons rec rest ih =>
    have hrec := hwf rec (List.mem_cons_self rec rest)
    have hrest : ∀ r ∈ rest, r.phred_quality.length = r.seq_len :=
      fun r hr => hwf r (List.mem_cons_of_mem rec hr)
    have ih' := ih hrest
    rw [Nanoget.process_fastq_plain] at ih' ⊢
    by_cases h0 : rec.seq_len = 0
    · have hnil : rec.phred_quality = [] :=
        List.length_eq_zero.mp (by rw [hrec, h0])
      rw [List.filterMap_cons, List.filter_cons]
      simp only [Nanoget.extract_from_fastq, hnil, Nanoget.aveQual_nil, h0]
      simpa using ih'
    · have hnnil : rec.phred_quality ≠ [] := by
        intro hc
        exact h0 (by rw [← hrec, hc]; rfl)
      rw [List.filterMap_cons, List.filter_cons]
      simp only [Nanoget.extract_from_fastq, Nanoget.aveQual_ok _ hnnil]
      rw [if_pos (by simpa using h0)]
      simp only [List.map_cons]
      rw [ih']

/-- C9 witness: the theorem applied to a concrete 3-record input — the
zero-length record yields no row, the two others one row each. -/
theorem C9_zero_length_records_dropped_witness :
    Nanoget.process_fastq_plain
      [Nanoget.plainRecA, Nanoget.plainRecZero, Nanoget.plainRecB] =
      [⟨2, Nanoget.aveQualVal [10, 20]⟩, ⟨1, Nanoget.aveQualVal [30]⟩] := by
  have h := C9_zero_length_records_dropped
    [Nanoget.plainRecA, Nanoget.plainRecZero, Nanoget.plainRecB] (by decide)
  rw [h]
  rfl

/-- C4 (amended): after merging, `get_input` subtracts ONE global minimum
from the raw time column regardless of combine mode — so the minimum of the
relative start-time column is exactly zero over the whole table, but under
`track` mode a dataset group's own minimum need not be zero.  (The claim's
per-dataset-group minimum is refuted by the counterexample.) -/
theorem C4_one_global_minimum (files : List String)
    (extract : String → List Nanoget.TimedRow) (names : Option (List String))
    (combine : String) (out : List Nanoget.StartRow)
    (h : (Nanoget.get_input Nanoget.post_time "summary" files extract
      names combine).result = .ok out) :
    Nanoget.npAmin (out.map (fun r => r.start_time)) =
      (if out.isEmpty then none else some 0) ∧
    ∃ crows m,
      Nanoget.combine_dfs (files.map extract)
        (Nanoget.effective_names names files) combine =
        .ok (some crows) ∧
      Nanoget.npAmin (crows.map (fun r => r.1.time)) = some m ∧
      out = crows.map (fun r => ⟨r.1.time - m, r.2⟩) := by
  unfold Nanoget.get_input at h
  rw [if_pos (by decide)] at h
  cases hcomb : Nanoget.combine_dfs (files.map extract)
      (Nanoget.effective_names names files) combine with
  | error e => rw [hcomb] at h; simp at h
  | ok o =>
    cases o with
    | none => rw [hcomb] at h; simp at h
    | some crows =>
      rw [hcomb] at h
      simp only [Nanoget.post_time] at h
      cases hmin : Nanoget.npAmin (crows.map (fun r => r.1.time)) with
      | none => rw [hmin] at h; simp at h
      | some m =>
        rw [hmin] at h
        simp only [Except.ok.injEq] at h
        subst h
        refine ⟨?_, crows, m, rfl, hmin, rfl⟩
        have hmap : (crows.map (fun r =>
            (⟨r.1.time - m, r.2⟩ : Nanoget.StartRow))).map
              (fun r => r.start_time) =
            (crows.map (fun r => r.1.time)).map (fun t => t - m) := by
          simp [List.map_map]
        rw [hmap]
        cases hc : crows with
        | nil => simp [Nanoget.npAmin]
        | cons c cs =>
          rw [← hc]
          have hne : (crows.map (fun r => r.1.time)).map (fun t => t - m) ≠ [] := by
            simp [hc]
          rw [Nanoget.npAmin_map_sub _ m hmin]
          have : ((crows.map (fun r =>
              (⟨r.1.time - m, r.2⟩ : Nanoget.StartRow))).isEmpty) = false := by
            simp [hc]
          simp [hc]

/-- C4 counterexample: in the tracked two-dataset run the single global
minimum (10) is subtracted everywhere, so dataset `fileB`'s only row gets
relative start time 20 — the minimum within that dataset group is 20, not
0, refuting the per-dataset-group zero minimum. -/
theorem C4_one_global_minimum_counterexample :
    Nanoget.c4run.result = .ok
      [⟨0, some "fileA"⟩, ⟨10, some "fileA"⟩, ⟨20, some "fileB"⟩] ∧
    ((([⟨0, some "fileA"⟩, ⟨10, some "fileA"⟩, ⟨20, some "fileB"⟩] :
        List Nanoget.StartRow).filter
      (fun r => r.dataset == some "fileB")).map (fun r => r.start_time)) =
      [20] := by
  constructor <;> rfl

/-- C4 witness: the amended theorem applied to a concrete untracked run —
the global minimum of the relative start-time column is zero. -/
theorem C4_one_global_minimum_witness :
    Nanoget.npAmin (([⟨0, none⟩, ⟨4, none⟩] : List Nanoget.StartRow).map
      (fun r => r.start_time)) =
      (if ([⟨0, none⟩, ⟨4, none⟩] : List Nanoget.StartRow).isEmpty then none
       else some 0) :=
  (C4_one_global_minimum ["f1"] (fun _ => [⟨5⟩, ⟨9⟩]) none "simple"
    [⟨0, none⟩, ⟨4, none⟩] (by rfl)).1

theorem zip_take_len {α β : Type} (l : List α) (l' : List β) :
    (l.take l'.length).zip l' = l.zip l' := by
  induction l generalizing l' with
  | nil => simp
  | cons a as ih =>
    cases l' with
    | nil => simp
    | cons b bs => simp [List.take_succ_cons, List.zip_cons_cons, ih]

/-- C6 counterexample: a supplied names list of length 1 against a file
list of length 2 raises NO error — the call succeeds and `b.fastq`'s row
(length 7) is silently dropped by the truncating `zip`, refuting the
claimed fatal `ConfigurationError`. -/
theorem C6_track_names_counterexample :
    Nanoget.c6run.result = .ok [(⟨5, 10⟩, some "only_name")] := by
  rfl

/-- C6 (amended): no length check is performed.  Under `track` mode with a
supplied non-empty names list the call succeeds for any non-empty file
list; `zip(dfs, names)` silently truncates, so the result equals the run
over just the first `len(names)` files; when no names are supplied the
dataset names default to the file paths (`names or files`). -/
theorem C6_track_names_zip_truncates (files : List String)
    (extract : String → List Nanoget.PlainRow) (ns : List String)
    (hf : files ≠ []) (hn : ns ≠ []) :
    (∃ rows, (Nanoget.get_input Nanoget.post_plain "fastq" files extract
      (some ns) "track").result = .ok rows) ∧
    (Nanoget.get_input Nanoget.post_plain "fastq" files extract
      (some ns) "track").result =
      (Nanoget.get_input Nanoget.post_plain "fastq" (files.take ns.length)
        extract (some ns) "track").result ∧
    (Nanoget.get_input Nanoget.post_plain "fastq" files extract
      none "track").result =
      (Nanoget.get_input Nanoget.post_plain "fastq" files extract
        (some files) "track").result := by
  have heff : Nanoget.effective_names (some ns) files = ns := by
    simp [Nanoget.effective_names, hn]
  have heff2 : Nanoget.effective_names (some ns) (files.take ns.length) = ns := by
    simp [Nanoget.effective_names, hn]
  refine ⟨?_, ?_, ?_⟩
  · unfold Nanoget.get_input
    rw [if_pos (by decide), heff]
    unfold Nanoget.combine_dfs
    rw [if_pos rfl]
    obtain ⟨f, fs, rfl⟩ := List.exists_cons_of_ne_nil hf
    obtain ⟨n, nss, rfl⟩ := List.exists_cons_of_ne_nil hn
    simp only [List.map_cons, List.zip_cons_cons, List.isEmpty_cons]
    exact ⟨_, rfl⟩
  · have hcombeq :
        Nanoget.combine_dfs ((files.take ns.length).map extract) ns "track" =
          Nanoget.combine_dfs (files.map extract) ns "track" := by
      unfold Nanoget.combine_dfs
      rw [if_pos rfl, if_pos rfl, List.map_take, zip_take_len]
    unfold Nanoget.get_input
    rw [if_pos (by decide), if_pos (by decide), heff, heff2, hcombeq]
    cases Nanoget.combine_dfs (files.map extract) ns "track" with
    | error e => rfl
    | ok o => cases o with
      | none => rfl
      | some rows => rfl
  · have h1 : Nanoget.effective_names none files = files := rfl
    have h2 : Nanoget.effective_names (some files) files = files := by
      simp [Nanoget.effective_names]
    unfold Nanoget.get_input
    rw [if_pos (by decide), if_pos (by decide), h1, h2]

/-- C6 witness: the amended theorem applied to the concrete two-file,
one-name tracked run — it succeeds (no `ConfigurationError`). -/
theorem C6_track_names_zip_truncates_witness :
    ∃ rows, (Nanoget.get_input Nanoget.post_plain "fastq"
      ["a.fastq", "b.fastq"] Nanoget.c6Extract
      (some ["only_name"]) "track").result = .ok rows :=
  (C6_track_names_zip_truncates ["a.fastq", "b.fastq"] Nanoget.c6Extract
    ["only_name"] (by decide) (by decide)).1

/-- C7: dispatching on a source-format tag outside the fixed
`proc_functions` key set fails with the `KeyError` of the dict lookup —
the source-level rendering of `UnsupportedFormat` — and no input file has
been touched (the lookup happens before the extractor is ever applied to
any file, so `files_read` is empty). -/
theorem C7_unknown_format_fails_pre_io {α β : Type}
    (post : List (α × Option String) → Except Nanoget.PyErr (List β))
    (source : String) (files : List String) (extract : String → List α)
    (names : Option (List String)) (combine : String)
    (h : Nanoget.proc_function_names.contains source = false) :
    (Nanoget.get_input post source files extract names combine).result =
      .error .keyError ∧
    (Nanoget.get_input post source files extract names combine).files_read =
      [] := by
  have h2 : ¬ (Nanoget.proc_function_names.contains source = true) := by
    rw [h]
    simp
  unfold Nanoget.get_input
  rw [if_neg h2]
  exact ⟨rfl, rfl⟩

/-- C7 witness: the theorem applied to the unknown tag `"fasta"`. -/
theorem C7_unknown_format_fails_pre_io_witness :
    (Nanoget.get_input Nanoget.post_plain "fasta" ["x.fasta"]
      (fun _ => ([] : List Nanoget.PlainRow)) none "simple").result =
      .error .keyError ∧
    (Nanoget.get_input Nanoget.post_plain "fasta" ["x.fasta"]
      (fun _ => ([] : List Nanoget.PlainRow)) none "simple").files_read =
      [] :=
  C7_unknown_format_fails_pre_io Nanoget.post_plain "fasta" ["x.fasta"]
    (fun _ => ([] : List Nanoget.PlainRow)) none "simple" (by decide)

/-- C8 (amended): `get_input` performs NO emptiness check after the merge:
whenever `combine_dfs` succeeds, the merged table is returned as-is — empty
or not — for the source formats without a raw time column.  (No
`NoReadsFound`-style abort exists in the code.) -/
theorem C8_no_emptiness_check {α : Type} (source : String)
    (files : List String) (extract : String → List α)
    (names : Option (List String)) (combine : String)
    (rows : List (α × Option String))
    (hs : Nanoget.proc_function_names.contains source = true)
    (hcomb : Nanoget.combine_dfs (files.map extract)
      (Nanoget.effective_names names files) combine = .ok (some rows)) :
    (Nanoget.get_input Nanoget.post_plain source files extract names
      combine).result = .ok rows := by
  unfold Nanoget.get_input
  rw [if_pos hs, hcomb]
  rfl

/-- C8 counterexample: the merged table of this run is empty, yet
`get_input` returns it successfully — no `NoReadsFound` abort occurs,
refuting "every table returned by get_input is non-empty". -/
theorem C8_no_emptiness_check_counterexample :
    Nanoget.c8run.result = .ok [] := by
  rfl

/-- C8 witness: the amended theorem applied to a concrete empty-merge run. -/
theorem C8_no_emptiness_check_witness :
    (Nanoget.get_input Nanoget.post_plain "fastq" ["empty.fastq"]
      (fun _ => ([] : List Nanoget.PlainRow)) none "simple").result =
      .ok [] :=
  C8_no_emptiness_check "fastq" ["empty.fastq"]
    (fun _ => ([] : List Nanoget.PlainRow)) none "simple" [] (by decide)
    (by rfl)

/-- C10: a sequence-format path other than `"stdin"` whose name ends in
none of `.gz`, `.bz2`, `.bgz`, `.fastq`, `.fq` makes
`handle_compressed_fastq` abort with `sys.exit` — even when the file
exists, whatever its contents — and the file-level extractor aborts
identically, so no extractor ever receives such a file. -/
theorem C10_unrecognized_extension_fatal (fileExists : String → Bool)
    (contents : String → List Nanoget.FastqRecord) (f : String)
    (h1 : f ≠ "stdin")
    (h2 : Nanoget.pyEndsWith f ".gz" = false)
    (h3 : Nanoget.pyEndsWith f ".bz2" = false)
    (h4 : Nanoget.pyEndsWith f ".fastq" = false)
    (h5 : Nanoget.pyEndsWith f ".fq" = false)
    (h6 : Nanoget.pyEndsWith f ".bgz" = false) :
    Nanoget.handle_compressed_fastq fileExists f = .error .systemExit ∧
    Nanoget.process_fastq_plain_file fileExists contents f =
      .error .systemExit := by
  have hh : Nanoget.handle_compressed_fastq fileExists f =
      .error .systemExit := by
    unfold Nanoget.handle_compressed_fastq
    rw [if_neg h1]
    cases hex : fileExists f
    · simp [hex]
    · simp [hex, h2, h3, h4, h5, h6]
  refine ⟨hh, ?_⟩
  rw [Nanoget.process_fastq_plain_file, hh]

/-- C10 witness: the theorem applied to an existing file named
`reads.fasta`. -/
theorem C10_unrecognized_extension_fatal_witness :
    Nanoget.handle_compressed_fastq (fun _ => true) "reads.fasta" =
      .error .systemExit ∧
    Nanoget.process_fastq_plain_file (fun _ => true) (fun _ => [])
      "reads.fasta" = .error .systemExit :=
  C10_unrecognized_extension_fatal (fun _ => true) (fun _ => [])
    "reads.fasta" (by decide) (by decide) (by decide) (by decide)
    (by decide) (by decide)
